import Mathlib

/-!
Verification of the auslex hybrid-search and compliance pipeline.

Shallow embedding of:
  * `api/vector_search_engine.py` — `VectorSearchEngine.search`, `_vector_search`,
    `_apply_hybrid_scoring`, `_fallback_search`, `_generate_embeddings`, `_truncate_text`;
  * `api/legal_corpus.py`       — `AustralianLegalCorpus.search_provisions`;
  * `api/legal_compliance.py`   — `LegalComplianceValidator.validate_response` and its six
    checks, `_classify_legal_domain`, `_get_required_disclaimers`,
    `_calculate_confidence_score`, and `LegalResponseEnhancer.enhance_response`.

Modelling conventions:
  * Python strings are `List Char`; `str.lower()` is `Char.toLower` mapped (ASCII-faithful,
    which covers every string the source compares against).
  * Floats are `ℚ`.  All score arithmetic in the source is elementary (+ * / max round), so
    the rational model is exact; "floating-point tolerance" in the spec becomes equality.
  * External collaborators (OpenAI embeddings endpoint, Pinecone index, the fitted sklearn
    TF-IDF vectorizer) are uninterpreted functions stored in the engine state; the theorems
    quantify over them.
  * Exceptions are `Except`; `try/except` is a `match`.
-/

/- Batteries marks the `Rat` field operations `@[irreducible]`; concrete evaluation of
the embedded score arithmetic (witnesses and counterexamples) needs them unfolded. -/
attribute [local semireducible] Rat.mul Rat.inv Rat.add Rat.sub Rat.ofScientific

/-! ## Python string primitives -/

/-- Python's `needle in hay` substring test on `List Char`. -/
def strIn (needle : List Char) : List Char → Bool
  | [] => needle.isEmpty
  | c :: rest => needle.isPrefixOf (c :: rest) || strIn needle rest

/-- Python's `str.lower()` (ASCII case folding suffices for every comparison the source makes). -/
def lowerStr (s : List Char) : List Char := s.map Char.toLower

/-- Whitespace recognised by Python's `str.split()` (the source never feeds it `\v`/`\f`). -/
def pySpace (c : Char) : Bool := c = ' ' || c = '\n' || c = '\t' || c = '\r'

/-- Python's `str.split()` — split on whitespace, dropping empty fields. -/
def pyWords (s : List Char) : List (List Char) :=
  (s.splitOnP pySpace).filter (fun w => !w.isEmpty)

/-- Python's `str.split(sep)` for a single-character separator keeps empty fields; that is
exactly `List.splitOn`. -/
def pySplitChar (sep : Char) (s : List Char) : List (List Char) := s.splitOn sep

/-- Python's `str.split("\n\n")` (the paragraph split used by the response enhancer):
greedy leftmost scan for the two-character separator, empty fields kept. -/
def splitPar : List Char → List (List Char)
  | [] => [[]]
  | [c] => [[c]]
  | c1 :: c2 :: rest =>
    if c1 = '\n' && c2 = '\n' then
      [] :: splitPar rest
    else
      match splitPar (c2 :: rest) with
      | [] => [[c1]]
      | g :: gs => (c1 :: g) :: gs

/-- Python's `"\n\n".join(groups)`. -/
def joinPar : List (List Char) → List Char
  | [] => []
  | [g] => g
  | g :: g' :: gs => g ++ '\n' :: '\n' :: joinPar (g' :: gs)

/-! ## Compliance data model (`api/legal_compliance.py`) -/

/-- `ComplianceLevel` (lines 17-21), ordered `low < medium < high < professional_advice_required`. -/
inductive ComplianceLevel
  | low_risk
  | medium_risk
  | high_risk
  | professional_advice_required
deriving DecidableEq, Fintype

/-- Position of a level in the risk ordering (`risk_levels_order`, lines 484-489). -/
def levelRank : ComplianceLevel → ℕ
  | .low_risk => 0
  | .medium_risk => 1
  | .high_risk => 2
  | .professional_advice_required => 3

/-- The larger of two risk levels under `levelRank`. -/
def maxLevel (a b : ComplianceLevel) : ComplianceLevel :=
  if levelRank a ≤ levelRank b then b else a

/-- `LegalDomain` (lines 23-33). -/
inductive LegalDomain
  | general_legal
  | litigation
  | corporate_law
  | criminal_law
  | family_law
  | immigration
  | employment
  | property
  | tax_law
  | constitutional
deriving DecidableEq

/-- `ComplianceCheck` (lines 35-43).  The `description`, `details`, `recommendations` and
`timestamp` fields are human-readable log data never consulted by the aggregation logic
(lines 162-204) or the enhancer, so the model keeps only the fields that logic reads,
plus `check_id` to identify the check. -/
structure ComplianceCheck where
  check_id : String
  risk_level : ComplianceLevel
  passed : Bool
deriving DecidableEq

/-- `LegalDisclaimer` (lines 45-50). -/
inductive Placement
  | header
  | inline
  | footer
deriving DecidableEq

structure LegalDisclaimer where
  content : List Char
  required_placement : Placement
  severity : ComplianceLevel
  applies_to_domains : List LegalDomain
deriving DecidableEq

/-- `_load_prohibited_phrases` (lines 63-79). -/
def prohibitedPhrases : List (List Char) :=
  ["i guarantee".data,
   "you will definitely win".data,
   "this is legal advice".data,
   "you should sue".data,
   "you have no case".data,
   "ignore the law".data,
   "this will work in court".data,
   "100% certain".data,
   "you can't lose".data,
   "guaranteed outcome".data,
   "definite result".data,
   "sure thing".data,
   "without a doubt in court".data]

/-- `_load_required_disclaimers` (lines 81-114). -/
def requiredDisclaimersConfig : List LegalDisclaimer :=
  [{ content := "This information is for educational purposes only and does not constitute legal advice. You should consult with a qualified Australian lawyer for advice specific to your situation.".data,
     required_placement := .footer,
     severity := .medium_risk,
     applies_to_domains := [.general_legal] },
   { content := "IMPORTANT: Immigration law is complex and changes frequently. This information should not replace professional immigration advice. Consult a registered migration agent or immigration lawyer.".data,
     required_placement := .header,
     severity := .high_risk,
     applies_to_domains := [.immigration] },
   { content := "WARNING: Criminal law matters have serious consequences. This information is general only. You must seek immediate legal representation from a criminal defence lawyer.".data,
     required_placement := .header,
     severity := .professional_advice_required,
     applies_to_domains := [.criminal_law] },
   { content := "Family law matters are highly fact-specific. This general information cannot replace advice from a family lawyer who understands your specific circumstances.".data,
     required_placement := .inline,
     severity := .high_risk,
     applies_to_domains := [.family_law] },
   { content := "Tax law is complex and penalties apply for incorrect advice. This information is general only. Consult a tax agent or tax lawyer for specific advice.".data,
     required_placement := .inline,
     severity := .high_risk,
     applies_to_domains := [.tax_law] }]

/-- `_load_jurisdiction_keywords` (lines 129-141), in dict insertion order. -/
def jurisdictionKeywords : List (String × List (List Char)) :=
  [("federal", ["commonwealth".data, "federal".data, "high court of australia".data,
                "federal court".data, "family court".data]),
   ("nsw", ["new south wales".data, "nsw".data, "supreme court of nsw".data,
            "nswsc".data, "sydney".data]),
   ("vic", ["victoria".data, "vic".data, "supreme court of victoria".data,
            "vsc".data, "melbourne".data]),
   ("qld", ["queensland".data, "qld".data, "supreme court of queensland".data,
            "qsc".data, "brisbane".data]),
   ("sa", ["south australia".data, "sa".data, "supreme court of south australia".data,
           "sasc".data, "adelaide".data]),
   ("wa", ["western australia".data, "wa".data, "supreme court of western australia".data,
           "wasc".data, "perth".data]),
   ("tas", ["tasmania".data, "tas".data, "supreme court of tasmania".data,
            "tassc".data, "hobart".data]),
   ("nt", ["northern territory".data, "nt".data, "supreme court of northern territory".data,
           "ntsc".data, "darwin".data]),
   ("act", ["australian capital territory".data, "act".data, "supreme court of act".data,
            "actsc".data, "canberra".data])]

/-! ## The six compliance checks -/

/-- `_check_prohibited_language` (lines 206-226). -/
def checkProhibitedLanguage (content : List Char) : ComplianceCheck :=
  let contentLower := lowerStr content
  let violations := prohibitedPhrases.filter (fun p => strIn p contentLower)
  { check_id := "prohibited_language",
    risk_level := if violations.isEmpty then .low_risk else .professional_advice_required,
    passed := violations.isEmpty }

/-- `_validate_citations` (lines 228-260).  The eight citation regexes are modelled by an
uninterpreted match-count function `citeCount` (total matches over all patterns), over
which every theorem quantifies.  The source adds `len(matches)` to `total_citations` and
to `valid_citations` in the same loop iteration, so `accuracy_rate` is
`total/total = 1.0` whenever `total > 0` and `1.0` by fiat when `total = 0`. -/
def validateCitations (citeCount : List Char → ℕ) (content : List Char) : ComplianceCheck :=
  let total := citeCount content
  let accuracyRate : ℚ := if 0 < total then (total : ℚ) / (total : ℚ) else 1
  let passed := (9 : ℚ) / 10 ≤ accuracyRate
  { check_id := "citation_validation",
    risk_level := if passed then .low_risk else .medium_risk,
    passed := passed }

/-- Directive phrases of `_assess_advice_level` (lines 265-268). -/
def adviceIndicators : List (List Char) :=
  ["you should".data, "you must".data, "you need to".data, "i recommend".data,
   "i suggest".data, "the best approach".data, "you can rely on".data,
   "this means you".data, "in your case".data]

/-- Hedged phrases of `_assess_advice_level` (lines 270-273). -/
def informationIndicators : List (List Char) :=
  ["generally".data, "typically".data, "usually".data, "may".data, "might".data,
   "could".data, "for example".data, "in some cases".data, "this information".data,
   "educational purposes".data]

/-- Personal-advice markers in the query (line 282). -/
def specificQueryIndicators : List (List Char) :=
  ["what should i do".data, "my situation".data, "my case".data, "help me".data]

/-- `_assess_advice_level` (lines 262-311). -/
def assessAdviceLevel (content query : List Char) : ComplianceCheck :=
  let contentLower := lowerStr content
  let queryLower := lowerStr query
  let adviceCount := (adviceIndicators.filter (fun p => strIn p contentLower)).length
  let infoCount := (informationIndicators.filter (fun p => strIn p contentLower)).length
  let specificQuery := specificQueryIndicators.any (fun p => strIn p queryLower)
  if infoCount < adviceCount && specificQuery then
    { check_id := "advice_level_assessment", risk_level := .professional_advice_required,
      passed := false }
  else if 3 < adviceCount then
    { check_id := "advice_level_assessment", risk_level := .high_risk, passed := false }
  else if 1 < adviceCount then
    { check_id := "advice_level_assessment", risk_level := .medium_risk, passed := true }
  else
    { check_id := "advice_level_assessment", risk_level := .low_risk, passed := true }

/-- Jurisdictions named in the text (lines 317-320): a jurisdiction counts as mentioned
when ANY of its keywords occurs as a raw substring of the lowercased content. -/
def mentionedJurisdictions (content : List Char) : List String :=
  let contentLower := lowerStr content
  (jurisdictionKeywords.filter (fun jk => jk.2.any (fun kw => strIn kw contentLower))).map
    (fun jk => jk.1)

/-- `_check_jurisdiction_consistency` (lines 313-346). -/
def checkJurisdictionConsistency (content : List Char) : ComplianceCheck :=
  let mentioned := mentionedJurisdictions content
  let conflict :=
    if 2 < mentioned.length then
      decide ("federal" ∈ mentioned) &&
        1 < (mentioned.filter (fun j => j ≠ "federal")).length
    else false
  { check_id := "jurisdiction_consistency",
    risk_level := if conflict then .medium_risk else .low_risk,
    passed := !conflict }

/-- Year references extracted by `_validate_currency_of_information` (lines 352-369).
All three `date_patterns` contain capture groups, so `re.findall` returns only the group
text: `"19"`/`"20"` for patterns 1 and 3, and `(month, "19"/"20")` tuples for pattern 2.
The subsequent filter keeps only 4-character digit strings (`len(part) == 4`), which no
group text ever is, so `mentioned_dates` — and hence `old_dates` — is always empty. -/
def mentionedDates (_content : List Char) : List ℤ := []

/-- `_validate_currency_of_information` (lines 348-404).  `sourceAgeDays` is the day count
the source computes from `metadata["when_scraped"]` and `datetime.now()`; it is `0` when
metadata is absent or unparseable (the bare `except: pass` leaves `source_age = 0`). -/
def validateCurrency (content : List Char) (currentYear : ℤ) (sourceAgeDays : ℕ) :
    ComplianceCheck :=
  let oldDates := (mentionedDates content).filter (fun d => 10 < currentYear - d)
  let issues := !oldDates.isEmpty || 365 < sourceAgeDays
  { check_id := "information_currency",
    risk_level := if issues then .medium_risk else .low_risk,
    passed := !issues }

/-- Legal-Latin denylist of `_assess_clarity_and_accessibility` (lines 417-420). -/
def complexTerms : List (List Char) :=
  ["estoppel".data, "tortfeasor".data, "chattels".data, "bailment".data,
   "quantum meruit".data, "mandamus".data, "certiorari".data, "habeas corpus".data,
   "res judicata".data, "ultra vires".data]

/-- `_assess_clarity_and_accessibility` (lines 406-452). -/
def assessClarity (content : List Char) : ComplianceCheck :=
  let sentences := pySplitChar '.' content
  let words := pyWords content
  -- `sentences` is never empty (`''.split('.') == ['']`), so the `if sentences else 0`
  -- guard is dead and the average is a genuine division.
  let avgSentenceLength : ℚ := (words.length : ℚ) / (sentences.length : ℚ)
  let longSentences := (sentences.filter (fun s => 25 < (pyWords s).length)).length
  let contentLower := lowerStr content
  let unexplainedJargon := complexTerms.filter (fun t =>
    strIn t contentLower && !strIn (t ++ " means".data) contentLower &&
      !strIn (t ++ " is".data) contentLower)
  let issues := (20 : ℚ) < avgSentenceLength ||
    (sentences.length : ℚ) * (3 / 10 : ℚ) < (longSentences : ℚ) ||
    !unexplainedJargon.isEmpty
  { check_id := "clarity_accessibility",
    risk_level := if issues then .medium_risk else .low_risk,
    passed := !issues }

/-! ## Aggregation (`validate_response`, lines 143-204) -/

/-- A warning entry (lines 180-185); only `check` and `risk_level` feed later logic. -/
structure Warning where
  check : String
  risk_level : ComplianceLevel
deriving DecidableEq

/-- `ValidationResult` dict assembled by `validate_response`.  `citation_accuracy` and
`recommended_improvements` are never read downstream and are omitted. -/
structure ValidationResult where
  overall_compliance : ComplianceLevel
  checks_performed : List ComplianceCheck
  warnings : List Warning
  required_disclaimers : List (List Char × Placement × ComplianceLevel)
  confidence_score : ℚ
deriving DecidableEq

/-- One step of the `max_risk_level` if/elif chain (lines 188-193). -/
def updateRisk (cur : ComplianceLevel) (lv : ComplianceLevel) : ComplianceLevel :=
  if lv = .professional_advice_required then .professional_advice_required
  else if lv = .high_risk && cur ≠ .professional_advice_required then .high_risk
  else if lv = .medium_risk && cur = .low_risk then .medium_risk
  else cur

/-- The result-processing loop (lines 174-193) over the outcomes `asyncio.gather`
collected with `return_exceptions=True`: an element that is an exception fails the
`isinstance(check, ComplianceCheck)` test and is skipped entirely; a check result is
appended to `checks_performed`, contributes a warning when it failed, and updates the
running maximum risk. -/
def processGatheredChecks (results : List (Except String ComplianceCheck)) :
    List ComplianceCheck × List Warning × ComplianceLevel :=
  results.foldl
    (fun acc r =>
      match r with
      | .error _ => acc
      | .ok c =>
        (acc.1 ++ [c],
         acc.2.1 ++ (if c.passed then [] else [{ check := c.check_id,
                                                 risk_level := c.risk_level }]),
         updateRisk acc.2.2 c.risk_level))
    ([], [], .low_risk)

/-- `_classify_legal_domain` keyword table (lines 458-467), in dict insertion order. -/
def domainKeywords : List (LegalDomain × List (List Char)) :=
  [(.criminal_law, ["criminal".data, "charge".data, "offence".data, "prosecution".data,
                    "defendant".data, "guilty".data, "conviction".data]),
   (.family_law, ["divorce".data, "custody".data, "child support".data,
                  "property settlement".data, "domestic violence".data]),
   (.immigration, ["visa".data, "migration".data, "citizenship".data, "refugee".data,
                   "deportation".data, "immigration".data]),
   (.employment, ["employment".data, "workplace".data, "unfair dismissal".data,
                  "discrimination".data, "wages".data]),
   (.property, ["property".data, "real estate".data, "lease".data, "tenant".data,
                "landlord".data, "conveyancing".data]),
   (.corporate_law, ["company".data, "corporation".data, "director".data,
                     "shareholder".data, "asic".data]),
   (.tax_law, ["tax".data, "ato".data, "gst".data, "income tax".data,
               "capital gains".data, "deduction".data]),
   (.constitutional, ["constitutional".data, "human rights".data, "high court".data,
                      "constitution".data])]

/-- `_classify_legal_domain` (lines 454-473): first domain whose keyword occurs in
`f"{query} {content}".lower()` wins; default `GENERAL_LEGAL`. -/
def classifyLegalDomain (query content : List Char) : LegalDomain :=
  let text := lowerStr (query ++ ' ' :: content)
  match domainKeywords.find? (fun dk => dk.2.any (fun kw => strIn kw text)) with
  | some dk => dk.1
  | none => .general_legal

/-- `_get_required_disclaimers` (lines 475-498): keep a configured disclaimer when the
classified domain (or `GENERAL_LEGAL`) is in its domain list and the assessed risk is at
or above the disclaimer's severity. -/
def getRequiredDisclaimers (domain : LegalDomain) (riskLevel : ComplianceLevel) :
    List (List Char × Placement × ComplianceLevel) :=
  (requiredDisclaimersConfig.filter (fun d =>
      (decide (domain ∈ d.applies_to_domains) ||
        decide (LegalDomain.general_legal ∈ d.applies_to_domains)) &&
      levelRank d.severity ≤ levelRank riskLevel)).map
    (fun d => (d.content, d.required_placement, d.severity))

/-- Python's `round(x, 2)`: banker's rounding on `100*x`.  (Float representation noise is
not modelled; no value reachable from `_calculate_confidence_score` sits exactly halfway,
since `100 * base_score` has denominator 3 and the penalties are integers there.) -/
def roundHalfEven (x : ℚ) : ℤ :=
  let n := ⌊x⌋
  let r := x - (n : ℚ)
  if r < 1 / 2 then n
  else if 1 / 2 < r then n + 1
  else if Even n then n else n + 1

def pyRound2 (x : ℚ) : ℚ := (roundHalfEven (100 * x) : ℚ) / 100

/-- `risk_penalties` (lines 513-518).  The `.get(..., 0.10)` default is unreachable:
every warning's `risk_level` is one of the four enum values. -/
def riskPenalty : ComplianceLevel → ℚ
  | .low_risk => 5 / 100
  | .medium_risk => 15 / 100
  | .high_risk => 25 / 100
  | .professional_advice_required => 40 / 100

/-- `_calculate_confidence_score` (lines 500-525). -/
def calculateConfidenceScore (checksPerformed : List ComplianceCheck)
    (warnings : List Warning) : ℚ :=
  if checksPerformed.isEmpty then 0
  else
    let passedChecks := (checksPerformed.filter (fun c => c.passed)).length
    let baseScore : ℚ := (passedChecks : ℚ) / (checksPerformed.length : ℚ)
    let totalPenalty : ℚ := (warnings.map (fun w => riskPenalty w.risk_level)).sum
    pyRound2 (max 0 (baseScore - totalPenalty))

/-- `validate_response` (lines 143-204).  `citeCount` stands for the citation regexes
(see `validateCitations`); `currentYear`/`sourceAgeDays` stand for the two readings of
the ambient clock (`datetime.now().year` and the age of `metadata["when_scraped"]`).
The six pure checks cannot raise, so the gathered outcome list is all-`ok`;
`processGatheredChecks` models the loop for arbitrary outcomes. -/
def validateResponse (citeCount : List Char → ℕ) (content query : List Char)
    (currentYear : ℤ) (sourceAgeDays : ℕ) : ValidationResult :=
  let gathered : List (Except String ComplianceCheck) :=
    [.ok (checkProhibitedLanguage content),
     .ok (validateCitations citeCount content),
     .ok (assessAdviceLevel content query),
     .ok (checkJurisdictionConsistency content),
     .ok (validateCurrency content currentYear sourceAgeDays),
     .ok (assessClarity content)]
  let processed := processGatheredChecks gathered
  let maxRiskLevel := processed.2.2
  let legalDomain := classifyLegalDomain query content
  { overall_compliance := maxRiskLevel,
    checks_performed := processed.1,
    warnings := processed.2.1,
    required_disclaimers := getRequiredDisclaimers legalDomain maxRiskLevel,
    confidence_score := calculateConfidenceScore processed.1 processed.2.1 }

/-! ## Response enhancer (`LegalResponseEnhancer.enhance_response`, lines 535-579) -/

/-- Header stage (lines 549-553): prepend `"⚠️ "`-marked header disclaimers joined and
separated from the text by a paragraph break. -/
def headerBlock (v : ValidationResult) : List (List Char) :=
  (v.required_disclaimers.filter (fun d => d.2.1 = Placement.header)).map
    (fun d => "⚠️ ".data ++ d.1)

def headerStage (text : List Char) (v : ValidationResult) : List Char :=
  if (headerBlock v).isEmpty then text
  else joinPar (headerBlock v) ++ '\n' :: '\n' :: text

/-- Inline stage (lines 555-562): when the running text splits into more than one
paragraph, insert the joined `"📝 "`-marked inline disclaimers at index 1; otherwise the
inline disclaimers are dropped (the `len(paragraphs) > 1` guard has no else branch). -/
def inlineBlock (v : ValidationResult) : List (List Char) :=
  (v.required_disclaimers.filter (fun d => d.2.1 = Placement.inline)).map
    (fun d => "📝 ".data ++ d.1)

def inlineStage (s : List Char) (v : ValidationResult) : List Char :=
  if (inlineBlock v).isEmpty then s
  else
    let paragraphs := splitPar s
    if 1 < paragraphs.length then joinPar (paragraphs.insertIdx 1 (joinPar (inlineBlock v)))
    else s

/-- Footer stage (lines 564-568). -/
def footerBlock (v : ValidationResult) : List (List Char) :=
  (v.required_disclaimers.filter (fun d => d.2.1 = Placement.footer)).map
    (fun d => "ℹ️ ".data ++ d.1)

def footerStage (s : List Char) (v : ValidationResult) : List Char :=
  if (footerBlock v).isEmpty then s
  else s ++ '\n' :: '\n' :: joinPar (footerBlock v)

/-- `enhance_response` (lines 535-579).  The confidence-note branch (lines 575-577)
compares the `ComplianceLevel` enum stored under `"overall_compliance"` against the
strings `"high_risk"`/`"professional_advice_required"`; an `Enum` member never equals a
`str`, so that condition is always `False` and no note is ever appended — the model
therefore ends at the footer stage. -/
def enhanceResponse (originalResponse : List Char) (v : ValidationResult) : List Char :=
  footerStage (inlineStage (headerStage originalResponse v) v) v

/-! ## Search data model (`api/vector_search_engine.py`, `api/legal_corpus.py`) -/

/-- `SearchMethod` (lines 29-32). -/
inductive SearchMethod
  | vector_only
  | hybrid
  | bm25_fallback
deriving DecidableEq

/-- Document ids appearing in results: `f"doc_{idx}"` (vector path), `f"corpus_{idx}"`
(lexical path), `'fallback_1'` (the mock row used when the corpus never initialised). -/
inductive DocId
  | doc : ℕ → DocId
  | corpus : ℕ → DocId
  | fallback1
deriving DecidableEq

/-- `SearchResult` (lines 47-56).  `metadata` is passed through from the external index /
corpus row and never read by the ranking logic, so it is omitted. -/
structure SearchResult where
  document_id : DocId
  score : ℚ
  content : List Char
  search_method : SearchMethod
  embedding_score : Option ℚ := none
  bm25_score : Option ℚ := none
  hybrid_score : Option ℚ := none
deriving DecidableEq

/-- Python's stable `list.sort(key=keyf, reverse=True)` / `sorted(..., reverse=True)`:
`List.insertionSort` is stable and, under `fun a b => keyf b ≤ keyf a`, descending. -/
def sortByScoreDesc {α : Type} (keyf : α → ℚ) (l : List α) : List α :=
  List.insertionSort (fun a b => keyf b ≤ keyf a) l

/-- The fitted TF-IDF side of the corpus (`legal_corpus.py`).  `sims q` is row `q` of
`cosine_similarity(vectorizer.transform([q]), tfidf_matrix).flatten()` — one score per
corpus document, uninterpreted (the fitted sklearn vectorizer is an external artifact);
`hsims` records that the matrix has one row per document. -/
structure LexCorpus where
  is_initialized : Bool
  docs : List (List Char)
  sims : List Char → List ℚ
  hsims : ∀ q, (sims q).length = docs.length

/-- A row of `search_provisions`' result list (lines 128-143); only the fields the vector
engine's fallback conversion reads (`id`, `text`, `relevance_score`) are kept. -/
structure CorpusResult where
  id : DocId
  text : List Char
  relevance_score : ℚ
deriving DecidableEq

/-- The mock row `_fallback_search` of `legal_corpus.py` returns (lines 291-303) when the
corpus never initialised. -/
def corpusMockResult : CorpusResult :=
  { id := .fallback1,
    text := "Information and invitation given in writing by Tribunal...".data,
    relevance_score := 1 / 2 }

/-- `AustralianLegalCorpus.search_provisions` (lines 105-149).
`argsort()[-top_k:][::-1]` selects the `top_k` highest-similarity indices in descending
order; numpy's default (introsort) leaves the relative order of equal scores
unspecified, modelled here as the stable descending sort.  Python's `[-0:]` slice is the
whole list, hence the `top_k = 0` case. -/
def searchProvisions (corpus : LexCorpus) (query : List Char) (topK : ℕ) :
    List CorpusResult :=
  if ¬ corpus.is_initialized then [corpusMockResult]
  else
    let similarities := corpus.sims query
    let order := sortByScoreDesc (fun i => similarities.getD i 0)
      (List.range similarities.length)
    let sel := if topK = 0 then order else order.take topK
    (sel.filter (fun i => (1 : ℚ) / 100 < similarities.getD i 0)).map (fun i =>
      { id := .corpus i,
        text := (corpus.docs.getD i []).take 2000,
        relevance_score := similarities.getD i 0 })

/-- `VectorSearchConfig` (lines 34-45), restricted to the fields the search paths read
(the Pinecone/OpenAI connection settings configure external collaborators, and
`enable_hybrid_search` is never consulted by `search`). -/
structure VectorSearchConfig where
  top_k : ℕ
  similarity_threshold : ℚ
  enable_metadata_filtering : Bool

/-- A Pinecone match: `match.id` is `f"doc_{idx}"`, kept as the bare index (the source
round-trips it through `int(document_id.replace("doc_", ""))`). -/
structure PineMatch where
  id : ℕ
  score : ℚ
deriving DecidableEq

/-- `VectorSearchEngine` state after `initialize`: `provider` is the OpenAI embeddings
endpoint (raises ⇒ `Except.error`), `index` the connected Pinecone index (`None` when
initialisation fell back), `fallback_set` whether `fallback_vectorizer`/`fallback_matrix`
were captured from the corpus. -/
structure VectorSearchEngine where
  config : VectorSearchConfig
  is_initialized : Bool
  provider : List (List Char) → Except Unit (List (List ℚ))
  index : Option (List ℚ → ℕ → Option (List (String × List Char)) → List PineMatch)
  fallback_set : Bool
  corpus : LexCorpus

/-- `_truncate_text` (lines 233-239): token budget ≈ 4 characters per token, trailing
`"..."` marker when cut. -/
def truncateText (maxTokens : ℕ) (text : List Char) : List Char :=
  let maxChars := maxTokens * 4
  if text.length ≤ maxChars then text else text.take maxChars ++ "...".data

/-- The exact text list `_generate_embeddings` hands to the provider (line 220):
every input text — corpus document at index-build time or query at search time — is
truncated to the 8000-token budget first. -/
def embedderInput (texts : List (List Char)) : List (List Char) :=
  texts.map (truncateText 8000)

/-- `_generate_embeddings` (lines 216-231); provider failures re-raise. -/
def generateEmbeddings (e : VectorSearchEngine) (texts : List (List Char)) :
    Except Unit (List (List ℚ)) :=
  e.provider (embedderInput texts)

/-- `_get_document_content` (lines 344-358). -/
def getDocumentContent (e : VectorSearchEngine) (docIdx : ℕ) : List Char :=
  match e.corpus.docs.get? docIdx with
  | some t => t.take 2000
  | none => "Content not available".data

/-- `_apply_hybrid_scoring` (lines 360-397).  `bm25_scores` is keyed `f"doc_{idx}"`, so
only `doc`-ids hit it (`.get(..., 0.0)` otherwise); `result.embedding_score` is always
set on the only call path (every input comes from the vector tier), so the
`except`-return-unchanged branch is unreachable in the pure model.  The final
`sort(key=lambda x: x.hybrid_score or 0, reverse=True)` is Python's stable sort. -/
def applyHybridScoring (e : VectorSearchEngine) (query : List Char)
    (vectorResults : List SearchResult) : List SearchResult :=
  let similarities := e.corpus.sims query
  let upd := vectorResults.map (fun r =>
    let bm25 : ℚ :=
      match r.document_id with
      | .doc n => similarities.getD n 0
      | _ => 0
    let hybrid : ℚ := 7 / 10 * r.embedding_score.getD 0 + 3 / 10 * bm25
    { r with bm25_score := some bm25, hybrid_score := some hybrid, score := hybrid,
             search_method := .hybrid })
  sortByScoreDesc (fun r => r.hybrid_score.getD 0) upd

/-- Lines 322-336 of `_vector_search`: matches at or above `similarity_threshold` become
`SearchResult`s tagged `VECTOR_ONLY` with `embedding_score = match.score`. -/
def vectorResultsOf (e : VectorSearchEngine) (pineMatches : List PineMatch) :
    List SearchResult :=
  (pineMatches.filter (fun m => e.config.similarity_threshold ≤ m.score)).map
    (fun m =>
      { document_id := .doc m.id,
        score := m.score,
        content := getDocumentContent e m.id,
        search_method := .vector_only,
        embedding_score := some m.score })

/-- Lines 301-317 of `_vector_search`: keep only the `jurisdiction`/`type`/`source`
filter keys (when metadata filtering is enabled) and pass `None` when the resulting
filter dict is empty. -/
def searchFilterArg (e : VectorSearchEngine) (filters : List (String × List Char)) :
    Option (List (String × List Char)) :=
  let filterDict :=
    if e.config.enable_metadata_filtering then
      filters.filter (fun kv =>
        kv.1 = "jurisdiction" || kv.1 = "type" || kv.1 = "source")
    else []
  if filterDict.isEmpty then none else some filterDict

/-- `_vector_search` (lines 289-342).  `embeddings[0]` on an empty provider response is
an `IndexError`, i.e. an error that `search`'s handler catches. -/
def vectorSearchTier (e : VectorSearchEngine)
    (idxQ : List ℚ → ℕ → Option (List (String × List Char)) → List PineMatch)
    (query : List Char) (filters : List (String × List Char)) (method : SearchMethod) :
    Except Unit (List SearchResult) := do
  let embs ← generateEmbeddings e [query]
  let queryVector ← match embs with
    | [] => Except.error ()
    | v :: _ => Except.ok v
  let pineMatches := idxQ queryVector e.config.top_k (searchFilterArg e filters)
  pure (if method = .hybrid && e.fallback_set then
          applyHybridScoring e query (vectorResultsOf e pineMatches)
        else vectorResultsOf e pineMatches)

/-- `_fallback_search` (lines 399-426): requires the captured TF-IDF artifacts, converts
`search_provisions` rows to `SearchResult`s tagged `BM25_FALLBACK`. -/
def fallbackSearchTier (e : VectorSearchEngine) (query : List Char) : List SearchResult :=
  if ¬ e.fallback_set then []
  else
    (searchProvisions e.corpus query e.config.top_k).map (fun cr =>
      { document_id := cr.id,
        score := cr.relevance_score,
        content := cr.text,
        search_method := .bm25_fallback })

/-- `search` (lines 264-287): uninitialised ⇒ `[]`; vector tier when an index is
connected and the caller did not force BM25; any exception from the vector tier is
caught and downgraded to the lexical fallback. -/
def search (e : VectorSearchEngine) (query : List Char)
    (filters : List (String × List Char)) (method : SearchMethod) : List SearchResult :=
  if ¬ e.is_initialized then []
  else
    match e.index with
    | some idxQ =>
      if method ≠ .bm25_fallback then
        match vectorSearchTier e idxQ query filters method with
        | .ok rs => rs
        | .error _ => fallbackSearchTier e query
      else fallbackSearchTier e query
    | none => fallbackSearchTier e query

/-! ## Support definitions for the statements -/

/-- The checks among gathered outcomes that are genuine `ComplianceCheck`s (pass the
`isinstance` test of line 176). -/
def okChecks (results : List (Except String ComplianceCheck)) : List ComplianceCheck :=
  results.filterMap (fun r => match r with | .ok c => some c | .error _ => none)

/-- The maximum risk level of a list of checks under the `levelRank` ordering. -/
def maxRiskOf (checks : List ComplianceCheck) : ComplianceLevel :=
  (checks.map ComplianceCheck.risk_level).foldl maxLevel .low_risk

/-- The confidence formula exactly as the claim states it (transcribed from the spec's
words, to compare against `_calculate_confidence_score`): pass rate minus the failed
checks' penalties, clamped to `[0, 1]`, with NO rounding. -/
def specConfidenceFormula (checks : List ComplianceCheck) : ℚ :=
  max 0 (min 1
    (((checks.filter (fun c => c.passed)).length : ℚ) / (checks.length : ℚ) -
      ((checks.filter (fun c => !c.passed)).map (fun c => riskPenalty c.risk_level)).sum))

/-- The BM25 score `_apply_hybrid_scoring` looks up for a result
(`bm25_scores.get(result.document_id, 0.0)`, dict keyed `f"doc_{idx}"`). -/
def bm25LookedUp (e : VectorSearchEngine) (query : List Char) (r : SearchResult) : ℚ :=
  match r.document_id with
  | .doc n => (e.corpus.sims query).getD n 0
  | _ => 0

/-- `g` is nonempty and does not end in a newline. -/
def lastIsNotNewline (g : List Char) : Bool :=
  match g.getLast? with
  | some c => c ≠ '\n'
  | none => false

/-! ## Concrete fixtures for witnesses and counterexamples -/

/-- Engine whose embedding provider raises on every call, with a live lexical index. -/
def engineProviderDown : VectorSearchEngine :=
  { config := { top_k := 10, similarity_threshold := 3 / 4,
                enable_metadata_filtering := true },
    is_initialized := true,
    provider := fun _ => .error (),
    index := some (fun _ _ _ => []),
    fallback_set := true,
    corpus := { is_initialized := true,
                docs := ["alpha two".data, "beta".data],
                sims := fun _ => [1 / 2, 1 / 5],
                hsims := fun _ => rfl } }

/-- Fully healthy engine whose index returns two above-threshold matches. -/
def engineHealthy : VectorSearchEngine :=
  { config := { top_k := 10, similarity_threshold := 3 / 4,
                enable_metadata_filtering := true },
    is_initialized := true,
    provider := fun ts => .ok (ts.map (fun _ => [1, 0])),
    index := some (fun _ _ _ => [{ id := 0, score := 4 / 5 }, { id := 1, score := 4 / 5 }]),
    fallback_set := true,
    corpus := { is_initialized := true,
                docs := ["alpha".data, "beta".data],
                sims := fun _ => [1 / 10, 1 / 10],
                hsims := fun _ => rfl } }

/-- Healthy engine whose index returns two equal-score matches with ids out of
ascending order (doc 5 before doc 3), and whose lexical scores tie as well. -/
def engineTiedScores : VectorSearchEngine :=
  { config := { top_k := 10, similarity_threshold := 3 / 4,
                enable_metadata_filtering := true },
    is_initialized := true,
    provider := fun ts => .ok (ts.map (fun _ => [1, 0])),
    index := some (fun _ _ _ => [{ id := 5, score := 4 / 5 }, { id := 3, score := 4 / 5 }]),
    fallback_set := true,
    corpus := { is_initialized := true,
                docs := ["a".data, "b".data, "c".data, "d".data, "e".data, "f".data],
                sims := fun _ => [1/10, 1/10, 1/10, 1/10, 1/10, 1/10],
                hsims := fun _ => rfl } }

/-- Response whose only failing check is clarity (unexplained jargon ⇒ medium risk). -/
def jargonResponse : List Char := "Estoppel.".data

/-- Response that trips the prohibited-language check and classifies as family law,
with a paragraph break inside the original text. -/
def familyResponse : List Char :=
  "You have no case.\n\nDivorce custody matters.".data

def familyQuery : List Char := "divorce".data

/-- A response with no paragraph break. -/
def plainResponse : List Char := "No paragraph breaks here.".data

/-- A response with a paragraph break and no compliance issues. -/
def twoParagraphResponse : List Char := "Para one.\n\nPara two.".data

/-- The configured family-law inline disclaimer (4th entry of
`_load_required_disclaimers`). -/
def familyDisclaimer : LegalDisclaimer :=
  requiredDisclaimersConfig.getD 3
    { content := [], required_placement := .footer, severity := .low_risk,
      applies_to_domains := [] }

/-- A validation result carrying exactly one inline-placement disclaimer. -/
def inlineOnlyValidation : ValidationResult :=
  { overall_compliance := .high_risk,
    checks_performed := [],
    warnings := [],
    required_disclaimers := [(familyDisclaimer.content, Placement.inline,
                              ComplianceLevel.high_risk)],
    confidence_score := 0 }

/-- Gathered check outcomes in which exactly the third check raised
(`asyncio.gather(..., return_exceptions=True)` hands the exception object back). -/
def gatheredWithOneError : List (Except String ComplianceCheck) :=
  [.ok { check_id := "prohibited_language", risk_level := .low_risk, passed := true },
   .ok { check_id := "citation_validation", risk_level := .low_risk, passed := true },
   .error "RuntimeError: advice-level check crashed",
   .ok { check_id := "jurisdiction_consistency", risk_level := .low_risk, passed := true },
   .ok { check_id := "information_currency", risk_level := .low_risk, passed := true },
   .ok { check_id := "clarity_accessibility", risk_level := .low_risk, passed := true }]

/-- Text mentioning jurisdiction keywords only as fragments of ordinary words
(plus the word "federal"). -/
def incidentalJurisdictionText : List Char :=
  "Federal practice visa wattle ants victim tastes.".data

/-- A query longer than the 32000-character embedding budget. -/
def longQuery : List Char := List.replicate 32001 'a'

/-- A short, compliance-clean response/query pair. -/
def cleanResponse : List Char := "Hello there.".data
def cleanQuery : List Char := "greetings".data

/-- A query within the embedding budget. -/
def shortQuery : List Char := "unfair dismissal protections".data

/-- The hybrid result `search engineHealthy` ranks first:
`0.7 * 0.8 + 0.3 * 0.1 = 59/100`. -/
def hybridWitnessResult : SearchResult :=
  { document_id := .doc 0,
    score := 59 / 100,
    content := "alpha".data,
    search_method := .hybrid,
    embedding_score := some (4 / 5),
    bm25_score := some (1 / 10),
    hybrid_score := some (59 / 100) }

/-! # Theorems -/

/-! ## Generic helper lemmas -/

theorem sortByScoreDesc_perm {α : Type} (keyf : α → ℚ) (l : List α) :
    List.Perm (sortByScoreDesc keyf l) l :=
  List.perm_insertionSort _ l

theorem sortByScoreDesc_sorted {α : Type} (keyf : α → ℚ) (l : List α) :
    List.Sorted (fun a b => keyf b ≤ keyf a) (sortByScoreDesc keyf l) := by
  haveI : IsTotal α fun a b => keyf b ≤ keyf a := ⟨fun a b => le_total (keyf b) (keyf a)⟩
  haveI : IsTrans α fun a b => keyf b ≤ keyf a := ⟨fun a b c hab hbc => le_trans hbc hab⟩
  exact List.sorted_insertionSort _ l

theorem levelRank_le_maxLevel_left : ∀ a b, levelRank a ≤ levelRank (maxLevel a b) := by
  decide

theorem levelRank_le_maxLevel_right : ∀ a b, levelRank b ≤ levelRank (maxLevel a b) := by
  decide

theorem maxLevel_cases : ∀ a b, maxLevel a b = a ∨ maxLevel a b = b := by decide

theorem rank_le_foldl_maxLevel (l : List ComplianceLevel) (a : ComplianceLevel) :
    levelRank a ≤ levelRank (l.foldl maxLevel a) := by
  induction l generalizing a with
  | nil => simp
  | cons c l ih =>
    exact le_trans (levelRank_le_maxLevel_left a c) (ih (maxLevel a c))

theorem mem_rank_le_foldl_maxLevel (l : List ComplianceLevel) (a : ComplianceLevel) :
    ∀ x ∈ l, levelRank x ≤ levelRank (l.foldl maxLevel a) := by
  induction l generalizing a with
  | nil => simp
  | cons c l ih =>
    intro x hx
    rcases List.mem_cons.mp hx with h | h
    · subst h
      exact le_trans (levelRank_le_maxLevel_right a x) (rank_le_foldl_maxLevel l _)
    · exact ih (maxLevel a c) x h

theorem foldl_maxLevel_attained (l : List ComplianceLevel) (a : ComplianceLevel) :
    l.foldl maxLevel a = a ∨ l.foldl maxLevel a ∈ l := by
  induction l generalizing a with
  | nil => left; rfl
  | cons c l ih =>
    rw [List.foldl_cons]
    rcases ih (maxLevel a c) with h | h
    · rw [h]
      rcases maxLevel_cases a c with h' | h'
      · left; exact h'
      · right; rw [h']; exact List.mem_cons_self c l
    · right; exact List.mem_cons.mpr (Or.inr h)

theorem updateRisk_eq_maxLevel : ∀ cur lv, updateRisk cur lv = maxLevel cur lv := by decide

theorem processGathered_go (results : List (Except String ComplianceCheck))
    (a : List ComplianceCheck) (w : List Warning) (m : ComplianceLevel) :
    results.foldl
      (fun acc r =>
        match r with
        | .error _ => acc
        | .ok c =>
          (acc.1 ++ [c],
           acc.2.1 ++ (if c.passed then [] else [{ check := c.check_id,
                                                   risk_level := c.risk_level }]),
           updateRisk acc.2.2 c.risk_level)) (a, w, m) =
    (a ++ okChecks results,
     w ++ (okChecks results).filterMap
        (fun c => if c.passed then none
                  else some { check := c.check_id, risk_level := c.risk_level }),
     ((okChecks results).map ComplianceCheck.risk_level).foldl maxLevel m) := by
  induction results generalizing a w m with
  | nil => simp [okChecks]
  | cons r rest ih =>
    cases r with
    | error e => simpa [okChecks, List.filterMap_cons] using ih a w m
    | ok c =>
      rw [List.foldl_cons]
      dsimp only
      rw [ih]
      by_cases h : c.passed <;>
        simp [okChecks, List.filterMap_cons, h, updateRisk_eq_maxLevel, List.append_assoc]

theorem processGathered_eq (results : List (Except String ComplianceCheck)) :
    processGatheredChecks results =
      (okChecks results,
       (okChecks results).filterMap
          (fun c => if c.passed then none
                    else some { check := c.check_id, risk_level := c.risk_level }),
       ((okChecks results).map ComplianceCheck.risk_level).foldl maxLevel .low_risk) := by
  simpa [processGatheredChecks] using processGathered_go results [] [] .low_risk

theorem penalty_filterMap_eq (l : List ComplianceCheck) :
    ((l.filterMap (fun c => if c.passed then none
        else some ({ check := c.check_id, risk_level := c.risk_level } : Warning))).map
      (fun w => riskPenalty w.risk_level)).sum =
    ((l.filter (fun c => !c.passed)).map (fun c => riskPenalty c.risk_level)).sum := by
  induction l with
  | nil => rfl
  | cons c l ih =>
    by_cases h : c.passed <;> simp [List.filterMap_cons, List.filter_cons, h, ih]

/-! ## Paragraph split/join lemmas -/

theorem splitPar_ne_nil : ∀ s, splitPar s ≠ [] := by
  intro s
  induction s using splitPar.induct with
  | case1 => simp [splitPar]
  | case2 c => simp [splitPar]
  | case3 c1 c2 rest h ih => simp [splitPar, h]
  | case4 c1 c2 rest h heq ih => exact absurd heq ih
  | case5 c1 c2 rest h g gs heq ih => simp [splitPar, h, heq]

theorem joinPar_cons_cons (g g' : List Char) (gs : List (List Char)) :
    joinPar (g :: g' :: gs) = g ++ '\n' :: '\n' :: joinPar (g' :: gs) := rfl

theorem joinPar_splitPar : ∀ s, joinPar (splitPar s) = s := by
  intro s
  induction s using splitPar.induct with
  | case1 => rfl
  | case2 c => rfl
  | case3 c1 c2 rest h ih =>
    simp only [Bool.and_eq_true, decide_eq_true_eq] at h
    obtain ⟨h1, h2⟩ := h
    subst h1; subst h2
    obtain ⟨g, gs, heq⟩ : ∃ g gs, splitPar rest = g :: gs := by
      cases hq : splitPar rest with
      | nil => exact absurd hq (splitPar_ne_nil rest)
      | cons g gs => exact ⟨g, gs, rfl⟩
    have hs : splitPar ('\n' :: '\n' :: rest) = [] :: splitPar rest := by simp [splitPar]
    rw [hs, heq, joinPar_cons_cons, ← heq, ih]
    rfl
  | case4 c1 c2 rest h heq ih => exact absurd heq (splitPar_ne_nil _)
  | case5 c1 c2 rest h g gs heq ih =>
    have hs : splitPar (c1 :: c2 :: rest) = (c1 :: g) :: gs := by simp [splitPar, h, heq]
    rw [heq] at ih
    rw [hs]
    cases gs with
    | nil =>
      have hg : g = c2 :: rest := ih
      simp [joinPar, hg]
    | cons g' gs' =>
      rw [joinPar_cons_cons]
      rw [joinPar_cons_cons] at ih
      simp [List.cons_append, ih]

theorem strIn_cons (n : List Char) (c : Char) (r : List Char) :
    strIn n (c :: r) = (n.isPrefixOf (c :: r) || strIn n r) := rfl

theorem splitPar_of_no_break : ∀ s, strIn ('\n' :: '\n' :: []) s = false → splitPar s = [s] := by
  intro s
  induction s using splitPar.induct with
  | case1 => intro _; rfl
  | case2 c => intro _; rfl
  | case3 c1 c2 rest h ih =>
    intro hs
    exfalso
    simp only [Bool.and_eq_true, decide_eq_true_eq] at h
    obtain ⟨h1, h2⟩ := h
    subst h1; subst h2
    rw [strIn_cons] at hs
    simp [List.isPrefixOf] at hs
  | case4 c1 c2 rest h heq ih => exact absurd heq (splitPar_ne_nil _)
  | case5 c1 c2 rest h g gs heq ih =>
    intro hs
    have hs' : strIn ('\n' :: '\n' :: []) (c2 :: rest) = false := by
      rw [strIn_cons] at hs
      exact (Bool.or_eq_false_iff.mp hs).2
    have hone : splitPar (c2 :: rest) = [c2 :: rest] := ih hs'
    rw [heq] at hone
    obtain ⟨hg, hgs⟩ := List.cons.inj hone
    have hsplit : splitPar (c1 :: c2 :: rest) = (c1 :: g) :: gs := by simp [splitPar, h, heq]
    rw [hsplit, hg, hgs]

theorem splitPar_append_break : ∀ (x t : List Char), lastIsNotNewline x = true →
    ∃ p ps, splitPar (x ++ '\n' :: '\n' :: t) = p :: ps ∧ ps ≠ [] ∧ p.length ≤ x.length := by
  intro x
  induction x with
  | nil => intro t hx; simp [lastIsNotNewline] at hx
  | cons c1 xs ih =>
    intro t hx
    cases xs with
    | nil =>
      have hc : ¬ c1 = '\n' := by simpa [lastIsNotNewline] using hx
      refine ⟨[c1], splitPar t, ?_, splitPar_ne_nil t, by simp⟩
      have h2 : splitPar ('\n' :: '\n' :: t) = [] :: splitPar t := by simp [splitPar]
      simp [splitPar, hc, h2]
    | cons c2 xs' =>
      by_cases hnn : c1 = '\n' ∧ c2 = '\n'
      · obtain ⟨h1, h2⟩ := hnn
        subst h1; subst h2
        refine ⟨[], splitPar (xs' ++ '\n' :: '\n' :: t), ?_, splitPar_ne_nil _, by simp⟩
        simp [splitPar, List.cons_append]
      · have hx' : lastIsNotNewline (c2 :: xs') = true := by
          rw [lastIsNotNewline] at hx ⊢
          rwa [List.getLast?_cons_cons] at hx
        obtain ⟨p, ps, heq, hps, hlen⟩ := ih t hx'
        refine ⟨c1 :: p, ps, ?_, hps, by simpa using Nat.succ_le_succ hlen⟩
        have hcond : (decide (c1 = '\n') && decide (c2 = '\n')) = false := by
          cases h1 : decide (c1 = '\n') <;> cases h2 : decide (c2 = '\n') <;> simp_all
        rw [List.cons_append] at heq
        simp [splitPar, hcond, heq]

theorem infix_append_left (l : List Char) {l₁ l₂ : List Char} (h : l₁ <:+: l₂) :
    l₁ <:+: l ++ l₂ := by
  obtain ⟨s, t, rfl⟩ := h
  exact ⟨l ++ s, t, by simp⟩

theorem infix_append_right (l : List Char) {l₁ l₂ : List Char} (h : l₁ <:+: l₂) :
    l₁ <:+: l₂ ++ l := by
  obtain ⟨s, t, rfl⟩ := h
  exact ⟨s, t ++ l, by simp⟩

theorem mem_joinPar_contains : ∀ (gs : List (List Char)) (g : List Char), g ∈ gs →
    g <:+: joinPar gs := by
  intro gs
  induction gs with
  | nil => simp
  | cons g' gs' ih =>
    intro g hg
    rcases List.mem_cons.mp hg with h | h
    · subst h
      cases gs' with
      | nil => exact List.infix_rfl
      | cons x xs =>
        rw [joinPar_cons_cons]
        exact (List.prefix_append g _).isInfix
    · cases gs' with
      | nil => cases h
      | cons x xs =>
        rw [joinPar_cons_cons]
        exact infix_append_left g' (infix_append_left ['\n', '\n'] (ih g h))

theorem suffix_of_suffix_length_le {l₁ l₂ s : List Char} (h1 : l₁ <:+ s) (h2 : l₂ <:+ s)
    (hl : l₁.length ≤ l₂.length) : l₁ <:+ l₂ := by
  have e1 : l₁ = s.drop (s.length - l₁.length) := List.suffix_iff_eq_drop.mp h1
  have e2 : l₂ = s.drop (s.length - l₂.length) := List.suffix_iff_eq_drop.mp h2
  have h2s : l₂.length ≤ s.length := h2.length_le
  have harith : s.length - l₁.length = (s.length - l₂.length) + (l₂.length - l₁.length) := by
    omega
  rw [e1, harith, ← List.drop_drop, ← e2]
  exact List.drop_suffix _ _

theorem lastIsNotNewline_joinPar : ∀ gs : List (List Char), gs ≠ [] →
    (∀ g ∈ gs, lastIsNotNewline g = true) → lastIsNotNewline (joinPar gs) = true := by
  intro gs
  induction gs with
  | nil => intro h; exact absurd rfl h
  | cons g gs' ih =>
    intro _ hall
    cases gs' with
    | nil => exact hall g (by simp)
    | cons x xs =>
      rw [joinPar_cons_cons]
      have hj := ih (by simp) (fun g' hg' => hall g' (List.mem_cons.mpr (Or.inr hg')))
      rw [lastIsNotNewline] at hj ⊢
      cases hJ : (joinPar (x :: xs)).getLast? with
      | none => rw [hJ] at hj; simp at hj
      | some c =>
        rw [hJ] at hj
        obtain ⟨j, js, hjj⟩ : ∃ j js, joinPar (x :: xs) = j :: js := by
          cases hq : joinPar (x :: xs) with
          | nil => rw [hq] at hJ; simp at hJ
          | cons j js => exact ⟨j, js, rfl⟩
        rw [hjj] at hJ
        rw [hjj, List.getLast?_append, List.getLast?_cons_cons, List.getLast?_cons_cons, hJ]
        simpa using hj

/-! ## Enhancer stage lemmas -/

theorem suffix_headerStage (text : List Char) (v : ValidationResult) :
    text <:+ headerStage text v := by
  unfold headerStage
  split
  · exact List.suffix_rfl
  · exact ⟨joinPar (headerBlock v) ++ ['\n', '\n'], by simp⟩

theorem infix_footerStage (s : List Char) (v : ValidationResult) {x : List Char}
    (h : x <:+: s) : x <:+: footerStage s v := by
  unfold footerStage
  split
  · exact h
  · exact infix_append_right ('\n' :: '\n' :: joinPar (footerBlock v)) h

theorem maxRisk_attained (L : List ComplianceCheck) (hne : L ≠ []) :
    ∃ c ∈ L, c.risk_level = (L.map ComplianceCheck.risk_level).foldl maxLevel .low_risk := by
  rcases foldl_maxLevel_attained (L.map ComplianceCheck.risk_level) .low_risk with h | h
  · cases L with
    | nil => exact absurd rfl hne
    | cons c L' =>
      refine ⟨c, List.mem_cons_self c L', ?_⟩
      have h1 : levelRank c.risk_level ≤
          levelRank (((c :: L').map ComplianceCheck.risk_level).foldl maxLevel .low_risk) :=
        mem_rank_le_foldl_maxLevel _ _ _ (List.mem_map_of_mem _ (List.mem_cons_self c L'))
      rw [h] at h1 ⊢
      cases hc : c.risk_level <;> rw [hc] at h1 <;> simp [levelRank] at h1 ⊢
  · obtain ⟨c, hc, he⟩ := List.mem_map.mp h
    exact ⟨c, hc, he⟩

/-! ## `validate_response` characterization -/

theorem validateResponse_checks (citeCount : List Char → ℕ) (content query : List Char)
    (currentYear : ℤ) (sourceAgeDays : ℕ) :
    (validateResponse citeCount content query currentYear sourceAgeDays).checks_performed =
      [checkProhibitedLanguage content,
       validateCitations citeCount content,
       assessAdviceLevel content query,
       checkJurisdictionConsistency content,
       validateCurrency content currentYear sourceAgeDays,
       assessClarity content] := by
  simp only [validateResponse]
  rw [processGathered_eq]
  simp [okChecks]

theorem validateResponse_overall (citeCount : List Char → ℕ) (content query : List Char)
    (currentYear : ℤ) (sourceAgeDays : ℕ) :
    (validateResponse citeCount content query currentYear sourceAgeDays).overall_compliance =
      maxRiskOf
        (validateResponse citeCount content query currentYear sourceAgeDays).checks_performed := by
  simp only [validateResponse, maxRiskOf]
  rw [processGathered_eq]

theorem validateResponse_warnings (citeCount : List Char → ℕ) (content query : List Char)
    (currentYear : ℤ) (sourceAgeDays : ℕ) :
    (validateResponse citeCount content query currentYear sourceAgeDays).warnings =
      List.filterMap
        (fun c => if c.passed then none
                  else some { check := c.check_id, risk_level := c.risk_level })
        (validateResponse citeCount content query currentYear sourceAgeDays).checks_performed := by
  simp only [validateResponse]
  rw [processGathered_eq]

theorem validateResponse_confidence (citeCount : List Char → ℕ) (content query : List Char)
    (currentYear : ℤ) (sourceAgeDays : ℕ) :
    (validateResponse citeCount content query currentYear sourceAgeDays).confidence_score =
      calculateConfidenceScore
        (validateResponse citeCount content query currentYear sourceAgeDays).checks_performed
        (validateResponse citeCount content query currentYear sourceAgeDays).warnings := by
  simp only [validateResponse]

/-- Claim C4: for every response text, query and metadata, the `overall_compliance` of the
validation result equals the maximum `risk_level` among all checks in `checks_performed`,
under the ordering low_risk < medium_risk < high_risk < professional_advice_required:
the if/elif risk chain of lines 188-193 computes the fold of the rank-maximum, every
performed check's level is bounded by it, and it is attained by some performed check. -/
theorem C4_overall_compliance_is_max_risk (citeCount : List Char → ℕ)
    (content query : List Char) (currentYear : ℤ) (sourceAgeDays : ℕ) :
    (validateResponse citeCount content query currentYear sourceAgeDays).overall_compliance =
      maxRiskOf
        (validateResponse citeCount content query currentYear sourceAgeDays).checks_performed ∧
    (∀ c ∈ (validateResponse citeCount content query currentYear sourceAgeDays).checks_performed,
      levelRank c.risk_level ≤ levelRank
        (validateResponse citeCount content query currentYear sourceAgeDays).overall_compliance) ∧
    ∃ c ∈ (validateResponse citeCount content query currentYear sourceAgeDays).checks_performed,
      c.risk_level =
        (validateResponse citeCount content query currentYear sourceAgeDays).overall_compliance := by
  have hover := validateResponse_overall citeCount content query currentYear sourceAgeDays
  refine ⟨hover, ?_, ?_⟩
  · intro c hc
    rw [hover]
    simp only [maxRiskOf]
    exact mem_rank_le_foldl_maxLevel _ _ _ (List.mem_map_of_mem _ hc)
  · rw [hover]
    simp only [maxRiskOf]
    refine maxRisk_attained _ ?_
    rw [validateResponse_checks]
    simp

/-- Witness for C4 at a concrete input. -/
theorem C4_overall_compliance_is_max_risk_witness :
    (validateResponse (fun _ => 0) jargonResponse ("hi".data) 2026 0).overall_compliance =
      maxRiskOf
        (validateResponse (fun _ => 0) jargonResponse ("hi".data) 2026 0).checks_performed ∧
    levelRank (assessClarity jargonResponse).risk_level ≤ levelRank
      (validateResponse (fun _ => 0) jargonResponse ("hi".data) 2026 0).overall_compliance ∧
    ∃ c ∈ (validateResponse (fun _ => 0) jargonResponse ("hi".data) 2026 0).checks_performed,
      c.risk_level =
        (validateResponse (fun _ => 0) jargonResponse ("hi".data) 2026 0).overall_compliance :=
  ⟨(C4_overall_compliance_is_max_risk (fun _ => 0) jargonResponse ("hi".data) 2026 0).1,
   (C4_overall_compliance_is_max_risk (fun _ => 0) jargonResponse ("hi".data) 2026 0).2.1
     (assessClarity jargonResponse)
     (by rw [validateResponse_checks]; simp),
   (C4_overall_compliance_is_max_risk (fun _ => 0) jargonResponse ("hi".data) 2026 0).2.2⟩

set_option maxRecDepth 100000 in
/-- Counterexample to claim C5 as stated: at this input exactly one check fails (clarity,
medium risk), the claim's formula gives `5/6 - 0.15 = 41/60`, but the code returns
`round(41/60, 2) = 0.68` — `_calculate_confidence_score` rounds to two decimals (line
525), which the claim omits. -/
theorem C5_confidence_formula_counterexample :
    (validateResponse (fun _ => 0) jargonResponse ("hi".data) 2026 0).confidence_score ≠
      specConfidenceFormula
        (validateResponse (fun _ => 0) jargonResponse ("hi".data) 2026 0).checks_performed := by
  decide

/-- Claim C5 as amended: the returned `confidence_score` equals the claim's formula
(pass rate minus risk penalties of failed checks, clamped to `[0,1]`) ROUNDED to two
decimal places with Python's `round`. -/
theorem C5_amended_confidence_is_rounded_formula (citeCount : List Char → ℕ)
    (content query : List Char) (currentYear : ℤ) (sourceAgeDays : ℕ) :
    (validateResponse citeCount content query currentYear sourceAgeDays).confidence_score =
      pyRound2 (specConfidenceFormula
        (ValidationResult.checks_performed
          (validateResponse citeCount content query currentYear sourceAgeDays))) := by
  rw [validateResponse_confidence, validateResponse_warnings]
  set L := ValidationResult.checks_performed
    (validateResponse citeCount content query currentYear sourceAgeDays) with hL
  have hLne : L ≠ [] := by
    rw [hL, validateResponse_checks]
    simp
  simp only [calculateConfidenceScore, specConfidenceFormula]
  rw [if_neg (by simpa using hLne)]
  rw [penalty_filterMap_eq]
  have h2 : (0 : ℚ) < (L.length : ℚ) := by
    have h0 : 0 < L.length := List.length_pos.mpr hLne
    exact_mod_cast h0
  have hbase : ((L.filter (fun c => c.passed)).length : ℚ) / (L.length : ℚ) ≤ 1 := by
    rw [div_le_one h2]
    exact_mod_cast List.length_filter_le _ _
  have hpen :
      0 ≤ ((L.filter (fun c => !c.passed)).map (fun c => riskPenalty c.risk_level)).sum := by
    apply List.sum_nonneg
    intro x hx
    obtain ⟨c, _, rfl⟩ := List.mem_map.mp hx
    cases c.risk_level <;> norm_num [riskPenalty]
  rw [min_eq_right (by linarith)]

/-- Counterexample to claim C6 as stated: when the third gathered outcome is an exception,
the processing loop's `isinstance(check, ComplianceCheck)` test (line 176) silently skips
it — nothing is recorded as failed (the warnings list stays empty) and `checks_performed`
holds only the five surviving checks, with no entry for the crashed one. -/
theorem C6_exception_not_recorded_counterexample :
    (processGatheredChecks gatheredWithOneError).1 =
      [{ check_id := "prohibited_language", risk_level := .low_risk, passed := true },
       { check_id := "citation_validation", risk_level := .low_risk, passed := true },
       { check_id := "jurisdiction_consistency", risk_level := .low_risk, passed := true },
       { check_id := "information_currency", risk_level := .low_risk, passed := true },
       { check_id := "clarity_accessibility", risk_level := .low_risk, passed := true }] ∧
    (processGatheredChecks gatheredWithOneError).2.1 = [] := by decide

/-- Claim C6 as amended: a check that throws is silently dropped — processing a gathered
outcome list containing an exception gives exactly the result of processing the list with
that exception removed (so it is absent from `checks_performed` and from the warnings,
rather than recorded as failed); aggregation proceeds over the remaining checks and the
processing itself is total, so `validate_response` never throws. -/
theorem C6_amended_exception_skipped (pre post : List (Except String ComplianceCheck))
    (msg : String) :
    processGatheredChecks (pre ++ .error msg :: post) = processGatheredChecks (pre ++ post) := by
  rw [processGathered_eq, processGathered_eq]
  have hok : okChecks (pre ++ .error msg :: post) = okChecks (pre ++ post) := by
    simp [okChecks, List.filterMap_append, List.filterMap_cons]
  rw [hok]

/-- Counterexample to claim C7 as stated: a text with no paragraph break plus a
validation result carrying one inline disclaimer — `enhance_response` returns the text
unchanged (the `len(paragraphs) > 1` guard of line 559 has no else branch), so the
inline disclaimer's content is dropped instead of appended. -/
theorem C7_inline_dropped_counterexample :
    enhanceResponse plainResponse inlineOnlyValidation = plainResponse ∧
    strIn familyDisclaimer.content
        (enhanceResponse plainResponse inlineOnlyValidation) = false := by decide

/-- Claim C7 as amended: inline disclaimers are inserted after the first paragraph break
of the (header-prefixed) running text whenever the paragraph split yields more than one
paragraph — and in that case every inline disclaimer's content appears in the output;
when the split yields a single paragraph the inline disclaimers are omitted entirely
(never appended). -/
theorem C7_amended_inline_insertion (text : List Char) (v : ValidationResult)
    (d : List Char × Placement × ComplianceLevel)
    (hd : d ∈ v.required_disclaimers) (hpl : d.2.1 = Placement.inline)
    (hsplit : 1 < (splitPar (headerStage text v)).length) :
    d.1 <:+: enhanceResponse text v := by
  have hmem : ("📝 ".data ++ d.1) ∈ inlineBlock v := by
    unfold inlineBlock
    exact List.mem_map_of_mem _ (List.mem_filter.mpr ⟨hd, by simp [hpl]⟩)
  have hne : ¬ ((inlineBlock v).isEmpty = true) := by
    cases h : inlineBlock v with
    | nil => rw [h] at hmem; cases hmem
    | cons a l => simp [h]
  unfold enhanceResponse
  apply infix_footerStage
  unfold inlineStage
  rw [if_neg hne, if_pos hsplit]
  obtain ⟨p, q, ps, hps⟩ : ∃ p q ps, splitPar (headerStage text v) = p :: q :: ps := by
    cases h : splitPar (headerStage text v) with
    | nil => rw [h] at hsplit; simp at hsplit
    | cons p rest =>
      cases rest with
      | nil => rw [h] at hsplit; simp at hsplit
      | cons q ps => exact ⟨p, q, ps, rfl⟩
  rw [hps]
  have hins : (p :: q :: ps).insertIdx 1 (joinPar (inlineBlock v)) =
      p :: joinPar (inlineBlock v) :: q :: ps := rfl
  rw [hins, joinPar_cons_cons]
  apply infix_append_left p
  apply infix_append_left ['\n', '\n']
  exact infix_append_right _
    ((List.suffix_append ("📝 ".data) d.1).isInfix.trans (mem_joinPar_contains _ _ hmem))

/-- Witness for the amended C7 at a concrete input. -/
theorem C7_amended_inline_insertion_witness :
    ((familyDisclaimer.content, Placement.inline, ComplianceLevel.high_risk) ∈
        inlineOnlyValidation.required_disclaimers) ∧
    1 < (splitPar (headerStage twoParagraphResponse inlineOnlyValidation)).length ∧
    familyDisclaimer.content <:+:
      enhanceResponse twoParagraphResponse inlineOnlyValidation :=
  ⟨by decide, by decide,
   C7_amended_inline_insertion twoParagraphResponse inlineOnlyValidation
     (familyDisclaimer.content, Placement.inline, ComplianceLevel.high_risk)
     (by decide) rfl (by decide)⟩

/-- Every disclaimer triple `validate_response` emits comes from the static
configuration. -/
theorem validateResponse_disclaimers_from_config (citeCount : List Char → ℕ)
    (content query : List Char) (currentYear : ℤ) (sourceAgeDays : ℕ) :
    ∀ trip ∈ ValidationResult.required_disclaimers
        (validateResponse citeCount content query currentYear sourceAgeDays),
      ∃ d ∈ requiredDisclaimersConfig,
        trip = (d.content, d.required_placement, d.severity) := by
  intro trip htrip
  simp only [validateResponse, getRequiredDisclaimers] at htrip
  obtain ⟨d, hdf, rfl⟩ := List.mem_map.mp htrip
  exact ⟨d, (List.mem_filter.mp hdf).1, rfl⟩

/-- Each configured disclaimer, with the header warning marker prepended, is nonempty and
does not end in a newline (they all end in a period). -/
theorem config_header_lastIsNotNewline :
    ∀ d ∈ requiredDisclaimersConfig,
      lastIsNotNewline ("⚠️ ".data ++ d.content) = true := by decide

set_option maxRecDepth 100000 in
/-- Counterexample to claim C9 as stated: this response trips the prohibited-language
check (professional_advice_required) and classifies as family law, so validation requires
the inline family-law disclaimer; the text has a paragraph break, so `enhance_response`
splits the text and inserts the disclaimer between its two paragraphs — the original text
is no longer a contiguous substring of the output. -/
theorem C9_text_not_substring_counterexample :
    ¬ (familyResponse <:+: enhanceResponse familyResponse
        (validateResponse (fun _ => 0) familyResponse familyQuery 2026 0)) := by decide

/-- Claim C9 as amended: `enhance(text, validate(text, query))` contains `text` as a
contiguous substring whenever the validation requires no inline-placement disclaimer OR
the text has no paragraph break; when an inline disclaimer is inserted at the text's own
first paragraph break, the text's paragraphs survive in order but the text is split. -/
theorem C9_amended_enhance_contains_text (citeCount : List Char → ℕ)
    (content query : List Char) (currentYear : ℤ) (sourceAgeDays : ℕ)
    (h : inlineBlock (validateResponse citeCount content query currentYear sourceAgeDays)
          = [] ∨
         strIn ('\n' :: '\n' :: []) content = false) :
    content <:+:
      enhanceResponse content
        (validateResponse citeCount content query currentYear sourceAgeDays) := by
  set v := validateResponse citeCount content query currentYear sourceAgeDays with hv
  unfold enhanceResponse
  apply infix_footerStage
  rcases h with h | h
  · have h1 : inlineStage (headerStage content v) v = headerStage content v := by
      simp [inlineStage, h]
    rw [h1]
    exact (suffix_headerStage content v).isInfix
  · by_cases hh : (headerBlock v).isEmpty = true
    · have h1 : headerStage content v = content := by simp [headerStage, hh]
      rw [h1]
      unfold inlineStage
      split
      · exact List.infix_rfl
      · rw [splitPar_of_no_break content h]
        simp
    · have h1 : headerStage content v =
          joinPar (headerBlock v) ++ '\n' :: '\n' :: content := by
        simp [headerStage, hh]
      have hlast : lastIsNotNewline (joinPar (headerBlock v)) = true := by
        apply lastIsNotNewline_joinPar _ (by simpa using hh)
        intro g hg
        unfold headerBlock at hg
        obtain ⟨trip, htripf, rfl⟩ := List.mem_map.mp hg
        obtain ⟨d, hdc, rfl⟩ := validateResponse_disclaimers_from_config citeCount content
          query currentYear sourceAgeDays trip (List.mem_filter.mp htripf).1
        exact config_header_lastIsNotNewline d hdc
      obtain ⟨p, ps, hsplit, hps, hplen⟩ :=
        splitPar_append_break (joinPar (headerBlock v)) content hlast
      rw [h1]
      unfold inlineStage
      split
      · exact ⟨joinPar (headerBlock v) ++ ['\n', '\n'], [], by simp⟩
      · rw [hsplit, if_pos (by cases ps with | nil => exact absurd rfl hps | cons a l => simp)]
        obtain ⟨q, ps', rfl⟩ : ∃ q ps', ps = q :: ps' := by
          cases ps with
          | nil => exact absurd rfl hps
          | cons q ps' => exact ⟨q, ps', rfl⟩
        have hins : (p :: q :: ps').insertIdx 1 (joinPar (inlineBlock v)) =
            p :: joinPar (inlineBlock v) :: q :: ps' := rfl
        rw [hins, joinPar_cons_cons]
        have hrt : p ++ '\n' :: '\n' :: joinPar (q :: ps') =
            joinPar (headerBlock v) ++ '\n' :: '\n' :: content := by
          have hjs := joinPar_splitPar (joinPar (headerBlock v) ++ '\n' :: '\n' :: content)
          rw [hsplit, joinPar_cons_cons] at hjs
          exact hjs
        have hsuf : content <:+ joinPar (q :: ps') := by
          have ha : content <:+ p ++ '\n' :: '\n' :: joinPar (q :: ps') := by
            rw [hrt]
            exact ⟨joinPar (headerBlock v) ++ ['\n', '\n'], by simp⟩
          have hb : joinPar (q :: ps') <:+ p ++ '\n' :: '\n' :: joinPar (q :: ps') :=
            ⟨p ++ ['\n', '\n'], by simp⟩
          apply suffix_of_suffix_length_le ha hb
          have hlen := congrArg List.length hrt
          simp only [List.length_append, List.length_cons] at hlen
          omega
        apply infix_append_left p
        apply infix_append_left ['\n', '\n']
        apply infix_append_left (joinPar (inlineBlock v))
        exact infix_append_left ['\n', '\n'] hsuf.isInfix

/-- Witness for the amended C9 at a concrete clean input (no inline disclaimer is
required, and the output contains the original text). -/
theorem C9_amended_enhance_contains_text_witness :
    inlineBlock (validateResponse (fun _ => 0) cleanResponse cleanQuery 2026 0) = [] ∧
    cleanResponse <:+:
      enhanceResponse cleanResponse
        (validateResponse (fun _ => 0) cleanResponse cleanQuery 2026 0) :=
  ⟨by decide,
   C9_amended_enhance_contains_text (fun _ => 0) cleanResponse cleanQuery 2026 0
     (Or.inl (by decide))⟩

/-! ## Jurisdiction-matching lemmas -/

theorem mem_mentionedJurisdictions (content : List Char)
    (entry : String × List (List Char)) (kw : List Char)
    (hj : entry ∈ jurisdictionKeywords) (hkw : kw ∈ entry.2)
    (hin : strIn kw (lowerStr content) = true) :
    entry.1 ∈ mentionedJurisdictions content := by
  unfold mentionedJurisdictions
  refine List.mem_map.mpr ⟨entry, List.mem_filter.mpr ⟨hj, ?_⟩, rfl⟩
  exact List.any_eq_true.mpr ⟨kw, hkw, hin⟩

theorem two_le_length_of_two_mem {α : Type} {a b : α} {l : List α} (ha : a ∈ l)
    (hb : b ∈ l) (hab : a ≠ b) : 2 ≤ l.length := by
  cases l with
  | nil => cases ha
  | cons x xs =>
    cases xs with
    | nil =>
      simp only [List.mem_singleton] at ha hb
      exact absurd (ha.trans hb.symm) hab
    | cons y ys => simp [List.length_cons]
  
theorem length_filter_add_length_filter_not {α : Type} (l : List α) (p : α → Bool) :
    (l.filter p).length + (l.filter (fun a => !p a)).length = l.length := by
  induction l with
  | nil => rfl
  | cons x xs ih =>
    by_cases h : p x <;> simp [List.filter_cons, h] <;> omega

theorem jurisdiction_conflict_of_federal_two_states (content : List Char)
    (hf : "federal" ∈ mentionedJurisdictions content)
    (hs : "sa" ∈ mentionedJurisdictions content)
    (hw : "wa" ∈ mentionedJurisdictions content) :
    (checkJurisdictionConsistency content).passed = false ∧
    (checkJurisdictionConsistency content).risk_level = ComplianceLevel.medium_risk := by
  have hs' : "sa" ∈ (mentionedJurisdictions content).filter (fun j => j ≠ "federal") :=
    List.mem_filter.mpr ⟨hs, by decide⟩
  have hw' : "wa" ∈ (mentionedJurisdictions content).filter (fun j => j ≠ "federal") :=
    List.mem_filter.mpr ⟨hw, by decide⟩
  have h2 : 2 ≤ ((mentionedJurisdictions content).filter (fun j => j ≠ "federal")).length :=
    two_le_length_of_two_mem hs' hw' (by decide)
  have hf' : "federal" ∈
      (mentionedJurisdictions content).filter (fun j => !(decide (j ≠ "federal"))) :=
    List.mem_filter.mpr ⟨hf, by decide⟩
  have h1 : 1 ≤ ((mentionedJurisdictions content).filter
      (fun j => !(decide (j ≠ "federal")))).length :=
    List.length_pos.mpr (List.ne_nil_of_mem hf')
  have h3 : 2 < (mentionedJurisdictions content).length := by
    have := length_filter_add_length_filter_not (mentionedJurisdictions content)
      (fun j => decide (j ≠ "federal"))
    omega
  simp only [ne_eq, decide_not] at h2
  constructor <;> simp [checkJurisdictionConsistency] <;> exact ⟨h3, hf, by omega⟩

/-- Claim C10: jurisdiction keywords are matched as raw substrings of the lowercased
response text — any occurrence of the character sequence "act" (e.g. inside "practice" or
any statute's "Act"), "sa", "wa", "nt", "vic" or "tas" inside ordinary words counts the
corresponding jurisdiction as mentioned, and incidental occurrences of "federal" plus two
such fragments trip the federal-plus-multiple-states conflict flag. -/
theorem C10_jurisdiction_raw_substring_matching (content : List Char) :
    (strIn ("act".data) (lowerStr content) = true →
      "act" ∈ mentionedJurisdictions content) ∧
    (strIn ("sa".data) (lowerStr content) = true →
      "sa" ∈ mentionedJurisdictions content) ∧
    (strIn ("wa".data) (lowerStr content) = true →
      "wa" ∈ mentionedJurisdictions content) ∧
    (strIn ("nt".data) (lowerStr content) = true →
      "nt" ∈ mentionedJurisdictions content) ∧
    (strIn ("vic".data) (lowerStr content) = true →
      "vic" ∈ mentionedJurisdictions content) ∧
    (strIn ("tas".data) (lowerStr content) = true →
      "tas" ∈ mentionedJurisdictions content) ∧
    (strIn ("federal".data) (lowerStr content) = true →
     strIn ("sa".data) (lowerStr content) = true →
     strIn ("wa".data) (lowerStr content) = true →
      (checkJurisdictionConsistency content).passed = false ∧
      (checkJurisdictionConsistency content).risk_level = ComplianceLevel.medium_risk) := by
  refine ⟨?_, ?_, ?_, ?_, ?_, ?_, ?_⟩
  · exact fun h => mem_mentionedJurisdictions content
      (jurisdictionKeywords.getD 8 ("", [])) ("act".data) (by decide) (by decide) h
  · exact fun h => mem_mentionedJurisdictions content
      (jurisdictionKeywords.getD 4 ("", [])) ("sa".data) (by decide) (by decide) h
  · exact fun h => mem_mentionedJurisdictions content
      (jurisdictionKeywords.getD 5 ("", [])) ("wa".data) (by decide) (by decide) h
  · exact fun h => mem_mentionedJurisdictions content
      (jurisdictionKeywords.getD 7 ("", [])) ("nt".data) (by decide) (by decide) h
  · exact fun h => mem_mentionedJurisdictions content
      (jurisdictionKeywords.getD 2 ("", [])) ("vic".data) (by decide) (by decide) h
  · exact fun h => mem_mentionedJurisdictions content
      (jurisdictionKeywords.getD 6 ("", [])) ("tas".data) (by decide) (by decide) h
  · intro hfed hsa hwa
    exact jurisdiction_conflict_of_federal_two_states content
      (mem_mentionedJurisdictions content
        (jurisdictionKeywords.getD 0 ("", [])) ("federal".data) (by decide) (by decide) hfed)
      (mem_mentionedJurisdictions content
        (jurisdictionKeywords.getD 4 ("", [])) ("sa".data) (by decide) (by decide) hsa)
      (mem_mentionedJurisdictions content
        (jurisdictionKeywords.getD 5 ("", [])) ("wa".data) (by decide) (by decide) hwa)

/-- Witness for C10: every fragment occurs only inside ordinary words (except "federal"),
yet all six jurisdictions count as mentioned and the conflict flag fires. -/
theorem C10_jurisdiction_raw_substring_matching_witness :
    "act" ∈ mentionedJurisdictions incidentalJurisdictionText ∧
    "sa" ∈ mentionedJurisdictions incidentalJurisdictionText ∧
    "wa" ∈ mentionedJurisdictions incidentalJurisdictionText ∧
    "nt" ∈ mentionedJurisdictions incidentalJurisdictionText ∧
    "vic" ∈ mentionedJurisdictions incidentalJurisdictionText ∧
    "tas" ∈ mentionedJurisdictions incidentalJurisdictionText ∧
    (checkJurisdictionConsistency incidentalJurisdictionText).passed = false :=
  ⟨(C10_jurisdiction_raw_substring_matching incidentalJurisdictionText).1 (by decide),
   (C10_jurisdiction_raw_substring_matching incidentalJurisdictionText).2.1 (by decide),
   (C10_jurisdiction_raw_substring_matching incidentalJurisdictionText).2.2.1 (by decide),
   (C10_jurisdiction_raw_substring_matching incidentalJurisdictionText).2.2.2.1 (by decide),
   (C10_jurisdiction_raw_substring_matching incidentalJurisdictionText).2.2.2.2.1 (by decide),
   (C10_jurisdiction_raw_substring_matching incidentalJurisdictionText).2.2.2.2.2.1 (by decide),
   ((C10_jurisdiction_raw_substring_matching incidentalJurisdictionText).2.2.2.2.2.2
     (by decide) (by decide) (by decide)).1⟩

/-! ## `search` characterization -/

theorem vectorSearchTier_eval (e : VectorSearchEngine)
    (f : List ℚ → ℕ → Option (List (String × List Char)) → List PineMatch)
    (q : List Char) (filters : List (String × List Char)) (m : SearchMethod) :
    vectorSearchTier e f q filters m =
      match e.provider (embedderInput [q]) with
      | .error u => .error u
      | .ok [] => .error ()
      | .ok (v :: _) =>
        .ok (if m = .hybrid && e.fallback_set then
               applyHybridScoring e q
                 (vectorResultsOf e (f v e.config.top_k (searchFilterArg e filters)))
             else vectorResultsOf e (f v e.config.top_k (searchFilterArg e filters))) := by
  unfold vectorSearchTier generateEmbeddings
  cases hp : e.provider (embedderInput [q]) with
  | error u => simp [Bind.bind, Except.bind]
  | ok embs => cases embs <;> simp [Bind.bind, Except.bind, pure, Except.pure]

theorem search_characterization (e : VectorSearchEngine) (q : List Char)
    (filters : List (String × List Char)) (m : SearchMethod) :
    search e q filters m = [] ∨
    search e q filters m = fallbackSearchTier e q ∨
    ∃ f v fl, e.index = some f ∧
      search e q filters m =
        (if m = .hybrid && e.fallback_set then
          applyHybridScoring e q (vectorResultsOf e (f v e.config.top_k fl))
        else vectorResultsOf e (f v e.config.top_k fl)) := by
  unfold search
  by_cases hinit : e.is_initialized = true
  · rw [if_neg (by simp [hinit])]
    cases hidx : e.index with
    | none => right; left; rfl
    | some f =>
      by_cases hm : m = .bm25_fallback
      · right; left; simp [hm]
      · simp only [vectorSearchTier_eval]
        cases hp : e.provider (embedderInput [q]) with
        | error u => right; left; simp [hp, hm]
        | ok embs =>
          cases embs with
          | nil => right; left; simp [hp, hm]
          | cons v vs =>
            right; right
            exact ⟨f, v, searchFilterArg e filters, rfl, by simp [hp, hm]⟩
  · left
    rw [if_pos (by simp [hinit])]

/-! ## Lexical-fallback lemmas -/

theorem searchProvisions_ne_nil (corpus : LexCorpus) (q : List Char) (topK : ℕ)
    (hc : corpus.is_initialized = true) (hk : 1 ≤ topK)
    (hhit : ∃ i, i < (corpus.sims q).length ∧
      (1 : ℚ) / 100 < (corpus.sims q).getD i 0) :
    searchProvisions corpus q topK ≠ [] := by
  obtain ⟨i, hi, hs⟩ := hhit
  unfold searchProvisions
  rw [if_neg (by simp [hc])]
  dsimp only
  obtain ⟨j, rest, hcons⟩ : ∃ j rest,
      sortByScoreDesc (fun k => (corpus.sims q).getD k 0)
        (List.range (corpus.sims q).length) = j :: rest := by
    have hlen : (sortByScoreDesc (fun k => (corpus.sims q).getD k 0)
        (List.range (corpus.sims q).length)).length = (corpus.sims q).length := by
      rw [(sortByScoreDesc_perm _ _).length_eq, List.length_range]
    cases ho : sortByScoreDesc (fun k => (corpus.sims q).getD k 0)
        (List.range (corpus.sims q).length) with
    | nil => rw [ho] at hlen; simp at hlen; omega
    | cons j rest => exact ⟨j, rest, rfl⟩
  have hjmax : (1 : ℚ) / 100 < (corpus.sims q).getD j 0 := by
    have hmem : i ∈ sortByScoreDesc (fun k => (corpus.sims q).getD k 0)
        (List.range (corpus.sims q).length) :=
      ((sortByScoreDesc_perm _ _).mem_iff).mpr (List.mem_range.mpr hi)
    rw [hcons] at hmem
    rcases List.mem_cons.mp hmem with h | h
    · rw [← h]; exact hs
    · have hsort := sortByScoreDesc_sorted (fun k => (corpus.sims q).getD k 0)
        (List.range (corpus.sims q).length)
      rw [hcons] at hsort
      exact lt_of_lt_of_le hs (List.rel_of_sorted_cons hsort i h)
  rw [if_neg (by omega), hcons, List.take_cons (by omega)]
  have hjmax2 : (100 : ℚ)⁻¹ < ((corpus.sims q)[j]?).getD 0 := by
    simpa [List.getD_eq_getElem?_getD, one_div] using hjmax
  simp [List.filter_cons, hjmax2]

/-- Claim C1: if the embedding provider raises on every call but the lexical (TF-IDF)
index is live and non-empty (some document clears the 0.01 relevance cutoff), `search`
returns exactly the lexical-fallback tier's results — tagged `BM25_FALLBACK` and
non-empty — and never propagates the exception (the `try/except` of lines 277-287
downgrades it; `search` is a total function of the engine state). -/
theorem C1_provider_failure_lexical_fallback (e : VectorSearchEngine) (q : List Char)
    (filters : List (String × List Char)) (m : SearchMethod)
    (hinit : e.is_initialized = true)
    (hprov : ∀ texts, e.provider texts = Except.error ())
    (hfb : e.fallback_set = true)
    (hk : 1 ≤ e.config.top_k)
    (hcorp : e.corpus.is_initialized = true)
    (hhit : ∃ i, i < (e.corpus.sims q).length ∧
      (1 : ℚ) / 100 < (e.corpus.sims q).getD i 0) :
    search e q filters m = fallbackSearchTier e q ∧
    search e q filters m ≠ [] ∧
    ∀ r ∈ search e q filters m, r.search_method = SearchMethod.bm25_fallback := by
  have heq : search e q filters m = fallbackSearchTier e q := by
    unfold search
    rw [if_neg (by simp [hinit])]
    cases hidx : e.index with
    | none => rfl
    | some f =>
      by_cases hm : m = .bm25_fallback
      · simp [hm]
      · simp only [vectorSearchTier_eval, hprov]
        simp [hm]
  have hneq : fallbackSearchTier e q ≠ [] := by
    unfold fallbackSearchTier
    rw [if_neg (by simp [hfb])]
    intro h
    exact searchProvisions_ne_nil e.corpus q e.config.top_k hcorp hk hhit
      (List.map_eq_nil_iff.mp h)
  refine ⟨heq, by rw [heq]; exact hneq, ?_⟩
  intro r hr
  rw [heq] at hr
  unfold fallbackSearchTier at hr
  rw [if_neg (by simp [hfb])] at hr
  obtain ⟨cr, _, rfl⟩ := List.mem_map.mp hr
  rfl

/-- Witness for C1: a concrete engine whose provider always raises still answers from
the lexical tier. -/
theorem C1_provider_failure_lexical_fallback_witness :
    engineProviderDown.is_initialized = true ∧
    engineProviderDown.fallback_set = true ∧
    search engineProviderDown ("anything".data) [] .hybrid =
      fallbackSearchTier engineProviderDown ("anything".data) ∧
    search engineProviderDown ("anything".data) [] .hybrid ≠ [] :=
  ⟨rfl, rfl,
   (C1_provider_failure_lexical_fallback engineProviderDown ("anything".data) [] .hybrid
      rfl (fun _ => rfl) rfl (by decide) rfl ⟨0, by decide, by decide⟩).1,
   (C1_provider_failure_lexical_fallback engineProviderDown ("anything".data) [] .hybrid
      rfl (fun _ => rfl) rfl (by decide) rfl ⟨0, by decide, by decide⟩).2.1⟩

/-- Claim C2: every result `search` returns with `search_method = HYBRID` carries
`hybrid_score = 0.7 * embedding_score + 0.3 * bm25_score` (exact in ℚ, hence within any
floating-point tolerance), and its `score` field equals that hybrid score — the score
used for the final ranking. -/
theorem C2_hybrid_score_formula (e : VectorSearchEngine) (q : List Char)
    (filters : List (String × List Char)) (m : SearchMethod) :
    ∀ r ∈ search e q filters m, r.search_method = SearchMethod.hybrid →
      ∃ eb bm, r.embedding_score = some eb ∧ r.bm25_score = some bm ∧
        r.hybrid_score = some (7 / 10 * eb + 3 / 10 * bm) ∧
        r.score = 7 / 10 * eb + 3 / 10 * bm := by
  intro r hr hm
  rcases search_characterization e q filters m with h | h | ⟨f, v, fl, hf, h⟩
  · rw [h] at hr; cases hr
  · exfalso
    rw [h] at hr
    unfold fallbackSearchTier at hr
    split at hr
    · cases hr
    · obtain ⟨cr, _, rfl⟩ := List.mem_map.mp hr
      simp at hm
  · rw [h] at hr
    split at hr
    · unfold applyHybridScoring at hr
      have hr' := ((sortByScoreDesc_perm _ _).mem_iff).mp hr
      obtain ⟨x, hx, rfl⟩ := List.mem_map.mp hr'
      unfold vectorResultsOf at hx
      obtain ⟨pm, _, rfl⟩ := List.mem_map.mp hx
      exact ⟨pm.score, (e.corpus.sims q).getD pm.id 0, rfl, rfl, rfl, rfl⟩
    · exfalso
      unfold vectorResultsOf at hr
      obtain ⟨pm, _, rfl⟩ := List.mem_map.mp hr
      simp at hm

/-- Witness for C2: the top hybrid result of the healthy engine. -/
theorem C2_hybrid_score_formula_witness :
    hybridWitnessResult ∈ search engineHealthy ("q".data) [] .hybrid ∧
    hybridWitnessResult.search_method = SearchMethod.hybrid ∧
    ∃ eb bm, hybridWitnessResult.embedding_score = some eb ∧
      hybridWitnessResult.bm25_score = some bm ∧
      hybridWitnessResult.hybrid_score = some (7 / 10 * eb + 3 / 10 * bm) ∧
      hybridWitnessResult.score = 7 / 10 * eb + 3 / 10 * bm :=
  ⟨by decide, rfl,
   C2_hybrid_score_formula engineHealthy ("q".data) [] .hybrid hybridWitnessResult
     (by decide) rfl⟩

/-! ## Length and sortedness of each tier -/

theorem searchProvisions_length_le (corpus : LexCorpus) (q : List Char) (topK : ℕ)
    (hk : 1 ≤ topK) : (searchProvisions corpus q topK).length ≤ topK := by
  unfold searchProvisions
  split
  · simpa using hk
  · dsimp only
    rw [if_neg (by omega), List.length_map]
    refine le_trans (List.length_filter_le _ _) ?_
    simp [List.length_take]

theorem searchProvisions_sorted (corpus : LexCorpus) (q : List Char) (topK : ℕ) :
    ((searchProvisions corpus q topK).map CorpusResult.relevance_score).Sorted
      (fun a b => b ≤ a) := by
  unfold searchProvisions
  split
  · simp [List.Sorted]
  · dsimp only
    rw [List.map_map]
    have hsorted := sortByScoreDesc_sorted (fun i => (corpus.sims q).getD i 0)
      (List.range (corpus.sims q).length)
    have hsub : (if topK = 0 then
          sortByScoreDesc (fun i => (corpus.sims q).getD i 0)
            (List.range (corpus.sims q).length)
        else (sortByScoreDesc (fun i => (corpus.sims q).getD i 0)
            (List.range (corpus.sims q).length)).take topK).Sublist
        (sortByScoreDesc (fun i => (corpus.sims q).getD i 0)
          (List.range (corpus.sims q).length)) := by
      split
      · exact List.Sublist.refl _
      · exact List.take_sublist _ _
    have h1 := List.Pairwise.sublist hsub hsorted
    exact List.pairwise_map.mpr (List.Pairwise.sublist (List.filter_sublist _) h1)

theorem fallbackTier_length_le (e : VectorSearchEngine) (q : List Char)
    (hk : 1 ≤ e.config.top_k) : (fallbackSearchTier e q).length ≤ e.config.top_k := by
  unfold fallbackSearchTier
  split
  · simp
  · rw [List.length_map]
    exact searchProvisions_length_le e.corpus q e.config.top_k hk

theorem fallbackTier_sorted (e : VectorSearchEngine) (q : List Char) :
    ((fallbackSearchTier e q).map SearchResult.score).Sorted (fun a b => b ≤ a) := by
  unfold fallbackSearchTier
  split
  · simp [List.Sorted]
  · rw [List.map_map]
    exact List.pairwise_map.mpr
      (List.pairwise_map.mp (searchProvisions_sorted e.corpus q e.config.top_k))

theorem vectorResultsOf_length_le (e : VectorSearchEngine) (pm : List PineMatch) :
    (vectorResultsOf e pm).length ≤ pm.length := by
  unfold vectorResultsOf
  rw [List.length_map]
  exact List.length_filter_le _ _

theorem vectorResultsOf_sorted (e : VectorSearchEngine) (pm : List PineMatch)
    (h : (pm.map PineMatch.score).Sorted (fun a b => b ≤ a)) :
    ((vectorResultsOf e pm).map SearchResult.score).Sorted (fun a b => b ≤ a) := by
  unfold vectorResultsOf
  rw [List.map_map]
  exact List.pairwise_map.mpr
    (List.Pairwise.sublist (List.filter_sublist _) (List.pairwise_map.mp h))

theorem applyHybrid_length (e : VectorSearchEngine) (q : List Char)
    (rs : List SearchResult) : (applyHybridScoring e q rs).length = rs.length := by
  unfold applyHybridScoring
  rw [(sortByScoreDesc_perm _ _).length_eq, List.length_map]

theorem applyHybrid_mem_score (e : VectorSearchEngine) (q : List Char)
    (rs : List SearchResult) :
    ∀ x ∈ applyHybridScoring e q rs, x.score = x.hybrid_score.getD 0 := by
  intro x hx
  unfold applyHybridScoring at hx
  obtain ⟨y, _, rfl⟩ := List.mem_map.mp (((sortByScoreDesc_perm _ _).mem_iff).mp hx)
  rfl

theorem applyHybrid_sorted (e : VectorSearchEngine) (q : List Char)
    (rs : List SearchResult) :
    ((applyHybridScoring e q rs).map SearchResult.score).Sorted (fun a b => b ≤ a) := by
  have hsorted : (applyHybridScoring e q rs).Sorted
      (fun a b => b.hybrid_score.getD 0 ≤ a.hybrid_score.getD 0) := by
    unfold applyHybridScoring
    exact sortByScoreDesc_sorted _ _
  refine List.pairwise_map.mpr (List.Pairwise.imp_of_mem ?_ hsorted)
  intro a b ha hb hab
  show SearchResult.score b ≤ SearchResult.score a
  rw [applyHybrid_mem_score e q rs a ha, applyHybrid_mem_score e q rs b hb]
  exact hab

/-- Counterexample to claim C3 as stated: two results with identical hybrid scores come
back in the order the vector index supplied them (doc 5 before doc 3) — Python's stable
sort keeps insertion order for ties; nothing re-orders equal scores by document id. -/
theorem C3_tie_order_counterexample :
    (search engineTiedScores ("q".data) [] .hybrid).map SearchResult.document_id =
      [DocId.doc 5, DocId.doc 3] ∧
    (search engineTiedScores ("q".data) [] .hybrid).map SearchResult.score =
      [59 / 100, 59 / 100] := by decide

/-- Claim C3 as amended: for `top_k ≥ 1` (and a vector index honouring its contract of
at most `top_k` matches, ordered by score descending), `search` returns at most `top_k`
results with monotonically non-increasing scores; ties, however, keep the order in which
the candidates arrived (stable sort), they are NOT re-ordered by document id. -/
theorem C3_amended_length_and_sorted (e : VectorSearchEngine) (q : List Char)
    (filters : List (String × List Char)) (m : SearchMethod)
    (hk : 1 ≤ e.config.top_k)
    (hidx : ∀ f v fl, e.index = some f →
      (f v e.config.top_k fl).length ≤ e.config.top_k ∧
      ((f v e.config.top_k fl).map PineMatch.score).Sorted (fun a b => b ≤ a)) :
    (search e q filters m).length ≤ e.config.top_k ∧
    ((search e q filters m).map SearchResult.score).Sorted (fun a b => b ≤ a) := by
  rcases search_characterization e q filters m with h | h | ⟨f, v, fl, hf, h⟩ <;> rw [h]
  · constructor
    · simp
    · simp [List.Sorted]
  · exact ⟨fallbackTier_length_le e q hk, fallbackTier_sorted e q⟩
  · obtain ⟨hlen, hsort⟩ := hidx f v fl hf
    split
    · constructor
      · rw [applyHybrid_length]
        exact le_trans (vectorResultsOf_length_le e _) hlen
      · exact applyHybrid_sorted e q _
    · exact ⟨le_trans (vectorResultsOf_length_le e _) hlen, vectorResultsOf_sorted e _ hsort⟩

/-- Witness for the amended C3 at the healthy engine. -/
theorem C3_amended_length_and_sorted_witness :
    (search engineHealthy ("q".data) [] .hybrid).length ≤ engineHealthy.config.top_k ∧
    ((search engineHealthy ("q".data) [] .hybrid).map SearchResult.score).Sorted
      (fun a b => b ≤ a) :=
  C3_amended_length_and_sorted engineHealthy ("q".data) [] .hybrid (by decide)
    (fun f v fl hf => by
      injection hf with hf'
      subst hf'
      constructor
      · show ([({ id := 0, score := 4 / 5 } : PineMatch),
            { id := 1, score := 4 / 5 }]).length ≤ engineHealthy.config.top_k
        decide
      · show (([({ id := 0, score := 4 / 5 } : PineMatch),
            { id := 1, score := 4 / 5 }]).map PineMatch.score).Sorted (fun a b => b ≤ a)
        decide)

/-- Counterexample to claim C8 as stated: `_generate_embeddings` truncates EVERY text it
is handed — `_vector_search` passes the query through it (line 298), so a query longer
than 32000 characters is NOT embedded unchanged: the text sent to the provider is the
truncated query with the `"..."` marker. -/
theorem longQuery_length : longQuery.length = 32001 := by
  show (List.replicate 32001 'a').length = 32001
  exact List.length_replicate ..

theorem C8_query_truncated_counterexample : embedderInput [longQuery] ≠ [longQuery] := by
  intro h
  have h1 : truncateText 8000 longQuery = longQuery := (List.cons.inj h).1
  have h2 := congrArg List.length h1
  unfold truncateText at h2
  dsimp only at h2
  rw [longQuery_length] at h2
  rw [if_neg (by norm_num)] at h2
  rw [List.length_append, List.length_take, longQuery_length] at h2
  have h3 : ("...".data).length = 3 := rfl
  rw [h3] at h2
  omega

/-- Claim C8 as amended: the `_generate_embeddings` truncation (8000 tokens ≈ 32000
characters, trailing `"..."` marker) applies uniformly to every text handed to the
provider — corpus documents at index-build time AND the query at search time.  A query
is embedded unchanged exactly when it fits the budget; beyond it, the embedded text is
the 32000-character prefix plus the marker. -/
theorem C8_amended_truncation_uniform (t : List Char) :
    (t.length ≤ 32000 → embedderInput [t] = [t]) ∧
    (32000 < t.length → embedderInput [t] = [t.take 32000 ++ "...".data]) := by
  constructor
  · intro h
    simp [embedderInput, truncateText, h]
  · intro h
    simp [embedderInput, truncateText]
    intro h'
    omega

/-- Witness for the amended C8: a short query passes through unchanged; the long query
comes out truncated with the marker. -/
theorem C8_amended_truncation_uniform_witness :
    shortQuery.length ≤ 32000 ∧
    embedderInput [shortQuery] = [shortQuery] ∧
    32000 < longQuery.length ∧
    embedderInput [longQuery] = [longQuery.take 32000 ++ "...".data] :=
  ⟨by decide,
   (C8_amended_truncation_uniform shortQuery).1 (by decide),
   by rw [longQuery_length]; norm_num,
   (C8_amended_truncation_uniform longQuery).2 (by rw [longQuery_length]; norm_num)⟩
